import Mathlib

/-!
A shallow embedding of the `Reader` base class of `readers.py` together
with proofs about its argument validation (`check_arguments`), its
nearest-time-index lookup (`index_of_closest_time`) and its depth-range
index lookup (`indices_min_max_depth`).

Modelling conventions:
* floats (coordinates, depths) and datetimes/timedeltas (seconds) are
  modelled as exact rationals `ℚ`; the algorithms below only compare,
  subtract and divide them, and the properties under study are properties
  of that ideal arithmetic;
* a Python exception is modelled as an explicit error value (`Except` /
  `Option`), with the data interpolated into the exception message kept
  as structured payload;
* the code base is Python 2 (`__metaclass__`, string-exception style), so
  `round` rounds half away from zero and `None` compares below every
  `datetime`.
-/

namespace Readers

/-- One numpy ndarray as produced by `np.asarray` on the spatial inputs of
`Reader.check_arguments` (lines 104-106): a Python scalar becomes a
0-dimensional array (`scalar`), a sequence becomes a 1-dimensional array
(`arr`). -/
inductive NpArray (α : Type) where
  | scalar (a : α)
  | arr (l : List α)
deriving DecidableEq

/-- Python `len` of an ndarray: a 0-dimensional array is unsized, so `len`
raises `TypeError`, modelled as `none`. -/
def NpArray.len {α : Type} : NpArray α → Option Nat
  | .scalar _ => none
  | .arr l => some l.length

/-- The exceptions `Reader.check_arguments` can raise, with the data that
the source interpolates into each message kept as payload:
* `unsupportedVariable v catalog` models
  `ValueError('Variable not available: ' + v + '\nAvailable parameters are: ' + str(catalog))` (lines 110-112);
* `timeBeforeStart t s` models the `ValueError` of lines 114-115 and
  `timeAfterEnd t e` the one of lines 117-118;
* `allOutside n` models
  `ValueError('All particles are outside domain of reader ' + n)` (lines 122-123);
* `broadcastError` models the numpy shape-mismatch error in line 119;
* `typeError` models the `TypeError` raised by `len()` of a 0-dimensional
  array in line 121. -/
inductive CheckErr where
  | unsupportedVariable (v : String) (catalog : List String)
  | timeBeforeStart (t : Option ℚ) (s : ℚ)
  | timeAfterEnd (t : Option ℚ) (e : ℚ)
  | allOutside (readerName : String)
  | broadcastError
  | typeError
deriving DecidableEq

instance : DecidableEq (List String × Option ℚ × NpArray ℚ × NpArray ℚ × NpArray ℚ × List Nat) :=
  fun _ _ => inferInstance

instance {α β : Type} [DecidableEq α] [DecidableEq β] : DecidableEq (Except α β)
  | .error a, .error b =>
      if h : a = b then .isTrue (by rw [h])
      else .isFalse (fun hc => h (Except.error.inj hc))
  | .error _, .ok _ => .isFalse (fun hc => Except.noConfusion hc)
  | .ok _, .error _ => .isFalse (fun hc => Except.noConfusion hc)
  | .ok a, .ok b =>
      if h : a = b then .isTrue (by rw [h])
      else .isFalse (fun hc => h (Except.ok.inj hc))

/-- Holds exactly for the two time-coverage errors of lines 113-118. -/
def CheckErr.isTimeOutOfRange : CheckErr → Prop
  | .timeBeforeStart _ _ => True
  | .timeAfterEnd _ _ => True
  | _ => False

/-- The metadata of a `Reader` used by the methods under study.  The field
`vars` embeds `self.variables` (the identifier `variables` is reserved in
Lean 4); `startTime`/`endTime` are optional (`None` means unbounded);
`timeStep` is the step's `total_seconds()`. -/
structure Reader where
  name : String
  vars : List String
  startTime : Option ℚ
  endTime : Option ℚ
  timeStep : ℚ
  times : List ℚ
  xmin : ℚ
  xmax : ℚ
  ymin : ℚ
  ymax : ℚ
  depths : List ℚ

/-- Lines 101-103: a variable given as a single string is promoted to a
one-element list; a list is kept as it is. -/
def normalizeVars : Sum String (List String) → List String
  | .inl s => [s]
  | .inr l => l

/-- Lines 97-99: an unset (`None`) time is replaced by the reader's
`startTime` (which may itself be `None`). -/
def defaultTime (r : Reader) : Option ℚ → Option ℚ
  | none => r.startTime
  | some t => some t

/-- CPython 2 mixed-type comparison as used in line 113: `None` compares
below every `datetime`, so `time < startTime` is `True` for `time = None`. -/
def pyLtOptQ : Option ℚ → ℚ → Bool
  | none, _ => true
  | some t, s => decide (t < s)

/-- CPython 2 mixed-type comparison as used in line 116: `None > endTime`
is `False` because `None` compares below every `datetime`. -/
def pyGtOptQ : Option ℚ → ℚ → Bool
  | none, _ => false
  | some t, e => decide (e < t)

/-- Lines 108-112: the loop over the requested variables, raising on the
first variable missing from the reader's catalog. -/
def checkVars (catalog : List String) : List String → Option CheckErr
  | [] => none
  | v :: rest =>
      if v ∈ catalog then checkVars catalog rest
      else some (.unsupportedVariable v catalog)

/-- Lines 113-115: raise if `startTime` is set and the time precedes it. -/
def startTimeErr (r : Reader) (time : Option ℚ) : Option CheckErr :=
  match r.startTime with
  | none => none
  | some s => if pyLtOptQ time s then some (.timeBeforeStart time s) else none

/-- Lines 116-118: raise if `endTime` is set and the time exceeds it. -/
def endTimeErr (r : Reader) (time : Option ℚ) : Option CheckErr :=
  match r.endTime with
  | none => none
  | some e => if pyGtOptQ time e then some (.timeAfterEnd time e) else none

/-- Lines 119-120 for one point: the condition
`(x < self.xmin) | (x > self.xmax) | (y < self.xmin) | (y > self.ymax)`.
Note that the source compares `y` against `self.xmin`, not `self.ymin`. -/
def pointOutside (r : Reader) (a b : ℚ) : Bool :=
  decide (a < r.xmin) || decide (r.xmax < a) ||
    decide (b < r.xmin) || decide (r.ymax < b)

/-- Lines 119-120: `np.where(...)[0]`, the increasing list of indices of
the points flagged by `pointOutside`.  A 0-dimensional operand broadcasts
against the other operand (and `np.where` of a 0-dimensional boolean, as
in the numpy versions contemporary with this code, treats it as one
point); two 1-dimensional operands of different lengths fail to broadcast
(`none`). -/
def outsideWhere (r : Reader) : NpArray ℚ → NpArray ℚ → Option (List Nat)
  | .scalar a, .scalar b => some (if pointOutside r a b then [0] else [])
  | .scalar a, .arr yl =>
      some ((List.range yl.length).filter (fun i => pointOutside r a (yl.getD i 0)))
  | .arr xl, .scalar b =>
      some ((List.range xl.length).filter (fun i => pointOutside r (xl.getD i 0) b))
  | .arr xl, .arr yl =>
      if xl.length = yl.length then
        some ((List.range xl.length).filter
          (fun i => pointOutside r (xl.getD i 0) (yl.getD i 0)))
      else none

/-- Embeds `Reader.check_arguments` (lines 72-125): normalize, check the
variables, check the time bounds, compute the `outside` index set, raise
if it covers every point, and otherwise return the normalized arguments
together with `outside`. -/
def check_arguments (r : Reader) (variables0 : Sum String (List String))
    (time0 : Option ℚ) (x y depth : NpArray ℚ) :
    Except CheckErr
      (List String × Option ℚ × NpArray ℚ × NpArray ℚ × NpArray ℚ × List Nat) :=
  match checkVars r.vars (normalizeVars variables0) with
  | some e => .error e
  | none =>
    match startTimeErr r (defaultTime r time0) with
    | some e => .error e
    | none =>
      match endTimeErr r (defaultTime r time0) with
      | some e => .error e
      | none =>
        match outsideWhere r x y with
        | none => .error .broadcastError
        | some outside =>
          match x.len with
          | none => .error .typeError
          | some n =>
            if outside.length = n then .error (.allOutside r.name)
            else .ok (normalizeVars variables0, defaultTime r time0, x, y, depth, outside)

/-- Python 2 `round` as used in line 135: round half away from zero. -/
def pyRound (q : ℚ) : ℤ :=
  if 0 ≤ q then ⌊q + 1/2⌋ else ⌈q - 1/2⌉

/-- Python sequence indexing `l[i]`: a negative index counts from the end
of the sequence; `none` models `IndexError`. -/
def pyGet {α : Type} (l : List α) (i : ℤ) : Option α :=
  if 0 ≤ i then l[i.toNat]?
  else if 0 ≤ (l.length : ℤ) + i then l[((l.length : ℤ) + i).toNat]?
  else none

/-- Embeds `Reader.index_of_closest_time` (lines 127-137).  `none` models
the exceptions: `TypeError` when `startTime` is `None` (line 133),
`ZeroDivisionError` when the step is zero (line 134), and `IndexError`
from the list lookup in line 136. -/
def index_of_closest_time (r : Reader) (requestedTime : ℚ) : Option (ℤ × ℚ) :=
  match r.startTime with
  | none => none
  | some s =>
      if r.timeStep = 0 then none
      else
        let indx := pyRound ((requestedTime - s) / r.timeStep)
        (pyGet r.times indx).map (fun t => (indx, t))

/-- ndarray `.min()`; `none` models the `ValueError` on an empty array. -/
def ndarrayMin : List ℚ → Option ℚ
  | [] => none
  | a :: l => some (l.foldl min a)

/-- ndarray `.max()`; `none` models the `ValueError` on an empty array. -/
def ndarrayMax : List ℚ → Option ℚ
  | [] => none
  | a :: l => some (l.foldl max a)

/-- Index of the first `false` entry of a boolean list, if any. -/
def firstFalseIdx : List Bool → Option Nat
  | [] => none
  | false :: _ => some 0
  | true :: l => (firstFalseIdx l).map (· + 1)

/-- Index of the first `true` entry of a boolean list, if any. -/
def firstTrueIdx : List Bool → Option Nat
  | [] => none
  | true :: _ => some 0
  | false :: l => (firstTrueIdx l).map (· + 1)

/-- numpy `argmin` of a boolean array: the index of the first occurrence
of the minimum value (`False < True`), hence of the first `false`, and `0`
when every entry is `true`. -/
def boolArgmin (l : List Bool) : Nat := (firstFalseIdx l).getD 0

/-- numpy `argmax` of a boolean array: the index of the first `true`, and
`0` when every entry is `false`. -/
def boolArgmax (l : List Bool) : Nat := (firstTrueIdx l).getD 0

/-- Embeds `Reader.indices_min_max_depth` (lines 139-149):
`minIndex = (self.depths <= depths.min()).argmin() - 1` and
`maxIndex = (self.depths >= depths.max()).argmax()`.  `none` models the
`ValueError` raised by `.min()`/`.max()` of an empty requested array or by
`argmin`/`argmax` of an empty depth axis. -/
def indices_min_max_depth (r : Reader) (depths : List ℚ) : Option (ℤ × ℕ) :=
  match ndarrayMin depths, ndarrayMax depths with
  | some dmin, some dmax =>
      if r.depths.isEmpty then none
      else
        some ((boolArgmin (r.depths.map (fun d => decide (d ≤ dmin))) : ℤ) - 1,
              boolArgmax (r.depths.map (fun d => decide (dmax ≤ d))))
  | _, _ => none

/-- Stated from the spec (section 4.2): membership of a point in the
spatial bounding box `[xmin,xmax] × [ymin,ymax]`, used to compare the
spec's notion of "outside" with the mask the code computes. -/
def insideBox (r : Reader) (a b : ℚ) : Prop :=
  r.xmin ≤ a ∧ a ≤ r.xmax ∧ r.ymin ≤ b ∧ b ≤ r.ymax

/-! ### Concrete readers used in counterexamples and witnesses -/

/-- A reader whose bounding box has `ymin < xmin`, which separates the two
bounds that line 120 of the source confuses. -/
def rBox : Reader :=
  { name := "rBox", vars := ["x_wind"], startTime := none, endTime := none,
    timeStep := 1, times := [], xmin := 0, xmax := 10, ymin := -5, ymax := 10,
    depths := [] }

/-- The reader of the spec's section 8 scenario: wind variables and one day
of temporal coverage (seconds from the epoch of `2020-01-01T00:00`). -/
def rWind : Reader :=
  { name := "rWind", vars := ["x_wind", "y_wind"], startTime := some 0,
    endTime := some 86400, timeStep := 3600, times := [], xmin := 0, xmax := 10,
    ymin := 0, ymax := 10, depths := [] }

/-- A reader with a regular three-sample time axis: `startTime = 100`,
`timeStep = 100`. -/
def rTimes : Reader :=
  { name := "rTimes", vars := ["x_wind"], startTime := some 100, endTime := some 300,
    timeStep := 100, times := [100, 200, 300], xmin := 0, xmax := 10,
    ymin := 0, ymax := 10, depths := [] }

/-- A reader with the depth axis `[0, 10, 20, 30, 50]` of the spec's
`indices_min_max_depth` example. -/
def rDepthGrid : Reader :=
  { name := "rDepthGrid", vars := ["x_wind"], startTime := none, endTime := none,
    timeStep := 1, times := [], xmin := 0, xmax := 10, ymin := 0, ymax := 10,
    depths := [0, 10, 20, 30, 50] }

/-- A reader with the two-level depth axis `[0, 10]`. -/
def rDepthPair : Reader :=
  { name := "rDepthPair", vars := ["x_wind"], startTime := none, endTime := none,
    timeStep := 1, times := [], xmin := 0, xmax := 10, ymin := 0, ymax := 10,
    depths := [0, 10] }

/-- A reader whose depth axis `[10, 20]` does not reach up to the surface. -/
def rDepthDeep : Reader :=
  { name := "rDepthDeep", vars := ["x_wind"], startTime := none, endTime := none,
    timeStep := 1, times := [], xmin := 0, xmax := 10, ymin := 0, ymax := 10,
    depths := [10, 20] }

/-- A reader with a duplicated depth level, `[0, 10, 10, 20]` (the spec only
requires the axis to be ordered). -/
def rDepthDup : Reader :=
  { name := "rDepthDup", vars := ["x_wind"], startTime := none, endTime := none,
    timeStep := 1, times := [], xmin := 0, xmax := 10, ymin := 0, ymax := 10,
    depths := [0, 10, 10, 20] }

/-! ### Helper lemmas -/

theorem List.getD_pos {α : Type} (l : List α) (i : ℕ) (d : α) (h : i < l.length) :
    l.getD i d = l[i] := by
  simp [List.getD, List.getElem?_eq_getElem h]

theorem checkVars_eq_none_iff (catalog vs : List String) :
    checkVars catalog vs = none ↔ ∀ v ∈ vs, v ∈ catalog := by
  induction vs with
  | nil => simp [checkVars]
  | cons v rest ih =>
      by_cases hv : v ∈ catalog
      · simp [checkVars, hv, ih]
      · simp [checkVars, hv]

theorem checkVars_eq_some_first (catalog : List String) (vs : List String) (i : ℕ)
    (hi : i < vs.length) (hmiss : vs[i] ∉ catalog)
    (hfirst : ∀ j, j < i → vs.getD j "" ∈ catalog) :
    checkVars catalog vs = some (.unsupportedVariable vs[i] catalog) := by
  induction vs generalizing i with
  | nil => simp at hi
  | cons v rest ih =>
      cases i with
      | zero => simp only [List.getElem_cons_zero] at hmiss ⊢; simp [checkVars, hmiss]
      | succ k =>
          have hv : v ∈ catalog := by
            have := hfirst 0 (Nat.succ_pos k)
            simpa using this
          simp only [List.getElem_cons_succ]
          rw [checkVars, if_pos hv]
          exact ih k (by simpa using hi) (by simpa using hmiss)
            (fun j hj => by simpa using hfirst (j + 1) (Nat.succ_lt_succ hj))

theorem defaultTime_eq_none_iff (r : Reader) (t0 : Option ℚ) :
    defaultTime r t0 = none ↔ t0 = none ∧ r.startTime = none := by
  cases t0 <;> simp [defaultTime]

theorem startTimeErr_eq_some_iff (r : Reader) (t : Option ℚ) (e : CheckErr) :
    startTimeErr r t = some e ↔
      ∃ s, r.startTime = some s ∧ pyLtOptQ t s = true ∧ e = .timeBeforeStart t s := by
  cases hr : r.startTime with
  | none => simp [startTimeErr, hr]
  | some s =>
      simp only [startTimeErr, hr]
      constructor
      · intro he
        by_cases h : pyLtOptQ t s = true
        · rw [if_pos h] at he
          injection he with he'
          exact ⟨s, rfl, h, he'.symm⟩
        · rw [if_neg h] at he
          exact Option.noConfusion he
      · rintro ⟨s', hs', hlt, he⟩
        injection hs' with hs''
        subst hs''
        subst he
        rw [if_pos hlt]

theorem startTimeErr_eq_none_iff (r : Reader) (t : Option ℚ) :
    startTimeErr r t = none ↔ ∀ s, r.startTime = some s → pyLtOptQ t s = false := by
  cases hr : r.startTime with
  | none => simp [startTimeErr, hr]
  | some s =>
      simp only [startTimeErr, hr]
      by_cases h : pyLtOptQ t s = true
      · rw [if_pos h]
        simp [h]
      · rw [if_neg h]
        simp only [Bool.not_eq_true] at h
        simp [h]

theorem endTimeErr_eq_some_iff (r : Reader) (t : Option ℚ) (e : CheckErr) :
    endTimeErr r t = some e ↔
      ∃ en, r.endTime = some en ∧ pyGtOptQ t en = true ∧ e = .timeAfterEnd t en := by
  cases hr : r.endTime with
  | none => simp [endTimeErr, hr]
  | some en =>
      simp only [endTimeErr, hr]
      constructor
      · intro he
        by_cases h : pyGtOptQ t en = true
        · rw [if_pos h] at he
          injection he with he'
          exact ⟨en, rfl, h, he'.symm⟩
        · rw [if_neg h] at he
          exact Option.noConfusion he
      · rintro ⟨en', hen', hgt, he⟩
        injection hen' with hen''
        subst hen''
        subst he
        rw [if_pos hgt]

theorem endTimeErr_eq_none_iff (r : Reader) (t : Option ℚ) :
    endTimeErr r t = none ↔ ∀ en, r.endTime = some en → pyGtOptQ t en = false := by
  cases hr : r.endTime with
  | none => simp [endTimeErr, hr]
  | some en =>
      simp only [endTimeErr, hr]
      by_cases h : pyGtOptQ t en = true
      · rw [if_pos h]
        simp [h]
      · rw [if_neg h]
        simp only [Bool.not_eq_true] at h
        simp [h]

theorem firstFalseIdx_eq_some_iff (l : List Bool) (j : ℕ) :
    firstFalseIdx l = some j ↔
      j < l.length ∧ l.getD j true = false ∧ ∀ i, i < j → l.getD i false = true := by
  induction l generalizing j with
  | nil => simp [firstFalseIdx]
  | cons b rest ih =>
      cases b with
      | false =>
          cases j with
          | zero => simp [firstFalseIdx]
          | succ k =>
              simp only [firstFalseIdx]
              constructor
              · intro h; exact absurd h (by simp)
              · rintro ⟨-, -, hall⟩
                have := hall 0 (Nat.succ_pos k)
                simp at this
      | true =>
          cases j with
          | zero =>
              simp only [firstFalseIdx]
              constructor
              · intro h
                rcases Option.map_eq_some'.mp h with ⟨k, -, hk⟩
                exact absurd hk (by omega)
              · rintro ⟨-, hj, -⟩
                simp at hj
          | succ k =>
              simp only [firstFalseIdx]
              constructor
              · intro h
                rcases Option.map_eq_some'.mp h with ⟨m, hm, hmk⟩
                have hmk' : m = k := by omega
                subst hmk'
                rcases (ih m).mp hm with ⟨h1, h2, h3⟩
                refine ⟨by simpa using h1, by simpa using h2, ?_⟩
                intro i hi
                cases i with
                | zero => simp
                | succ i' => simpa using h3 i' (by omega)
              · rintro ⟨h1, h2, h3⟩
                have hm : firstFalseIdx rest = some k := by
                  refine (ih k).mpr ⟨by simpa using h1, by simpa using h2, ?_⟩
                  intro i hi
                  simpa using h3 (i + 1) (by omega)
                simp [hm]

theorem firstTrueIdx_eq_some_iff (l : List Bool) (j : ℕ) :
    firstTrueIdx l = some j ↔
      j < l.length ∧ l.getD j false = true ∧ ∀ i, i < j → l.getD i true = false := by
  induction l generalizing j with
  | nil => simp [firstTrueIdx]
  | cons b rest ih =>
      cases b with
      | true =>
          cases j with
          | zero => simp [firstTrueIdx]
          | succ k =>
              simp only [firstTrueIdx]
              constructor
              · intro h; exact absurd h (by simp)
              · rintro ⟨-, -, hall⟩
                have := hall 0 (Nat.succ_pos k)
                simp at this
      | false =>
          cases j with
          | zero =>
              simp only [firstTrueIdx]
              constructor
              · intro h
                rcases Option.map_eq_some'.mp h with ⟨k, -, hk⟩
                exact absurd hk (by omega)
              · rintro ⟨-, hj, -⟩
                simp at hj
          | succ k =>
              simp only [firstTrueIdx]
              constructor
              · intro h
                rcases Option.map_eq_some'.mp h with ⟨m, hm, hmk⟩
                have hmk' : m = k := by omega
                subst hmk'
                rcases (ih m).mp hm with ⟨h1, h2, h3⟩
                refine ⟨by simpa using h1, by simpa using h2, ?_⟩
                intro i hi
                cases i with
                | zero => simp
                | succ i' => simpa using h3 i' (by omega)
              · rintro ⟨h1, h2, h3⟩
                have hm : firstTrueIdx rest = some k := by
                  refine (ih k).mpr ⟨by simpa using h1, by simpa using h2, ?_⟩
                  intro i hi
                  simpa using h3 (i + 1) (by omega)
                simp [hm]

theorem firstFalseIdx_isSome (l : List Bool) (i : ℕ) (hi : i < l.length)
    (h : l.getD i true = false) : ∃ j, firstFalseIdx l = some j := by
  induction l generalizing i with
  | nil => simp at hi
  | cons b rest ih =>
      cases b with
      | false => exact ⟨0, by simp [firstFalseIdx]⟩
      | true =>
          cases i with
          | zero => simp at h
          | succ k =>
              rcases ih k (by simpa using hi) (by simpa using h) with ⟨j, hj⟩
              exact ⟨j + 1, by simp [firstFalseIdx, hj]⟩

theorem firstTrueIdx_isSome (l : List Bool) (i : ℕ) (hi : i < l.length)
    (h : l.getD i false = true) : ∃ j, firstTrueIdx l = some j := by
  induction l generalizing i with
  | nil => simp at hi
  | cons b rest ih =>
      cases b with
      | true => exact ⟨0, by simp [firstTrueIdx]⟩
      | false =>
          cases i with
          | zero => simp at h
          | succ k =>
              rcases ih k (by simpa using hi) (by simpa using h) with ⟨j, hj⟩
              exact ⟨j + 1, by simp [firstTrueIdx, hj]⟩

theorem pyRound_eq (z : ℤ) (q : ℚ) (hq : 0 ≤ q) (h1 : (z : ℚ) ≤ q + 1/2)
    (h2 : q + 1/2 < z + 1) : pyRound q = z := by
  unfold pyRound
  rw [if_pos hq, Int.floor_eq_iff]
  exact ⟨h1, h2⟩

theorem check_arguments_of_checkVars (r : Reader) (variables0 : Sum String (List String))
    (time0 : Option ℚ) (x y depth : NpArray ℚ) (e : CheckErr)
    (h : checkVars r.vars (normalizeVars variables0) = some e) :
    check_arguments r variables0 time0 x y depth = .error e := by
  unfold check_arguments
  rw [h]

theorem check_arguments_of_startTimeErr (r : Reader) (variables0 : Sum String (List String))
    (time0 : Option ℚ) (x y depth : NpArray ℚ) (e : CheckErr)
    (hcv : checkVars r.vars (normalizeVars variables0) = none)
    (hst : startTimeErr r (defaultTime r time0) = some e) :
    check_arguments r variables0 time0 x y depth = .error e := by
  unfold check_arguments
  rw [hcv, hst]

theorem check_arguments_of_endTimeErr (r : Reader) (variables0 : Sum String (List String))
    (time0 : Option ℚ) (x y depth : NpArray ℚ) (e : CheckErr)
    (hcv : checkVars r.vars (normalizeVars variables0) = none)
    (hst : startTimeErr r (defaultTime r time0) = none)
    (het : endTimeErr r (defaultTime r time0) = some e) :
    check_arguments r variables0 time0 x y depth = .error e := by
  unfold check_arguments
  rw [hcv, hst, het]

/-- Inversion: any error returned by `check_arguments` comes from one of
its five raise sites, in the order the source checks them. -/
theorem check_arguments_error_cases (r : Reader) (variables0 : Sum String (List String))
    (time0 : Option ℚ) (x y depth : NpArray ℚ) (e : CheckErr)
    (h : check_arguments r variables0 time0 x y depth = .error e) :
    checkVars r.vars (normalizeVars variables0) = some e ∨
    startTimeErr r (defaultTime r time0) = some e ∨
    endTimeErr r (defaultTime r time0) = some e ∨
    e = .broadcastError ∨ e = .typeError ∨ e = .allOutside r.name := by
  unfold check_arguments at h
  split at h
  · rename_i e1 heq
    refine Or.inl ?_
    rw [heq]
    exact congrArg some (Except.error.inj h)
  · split at h
    · rename_i e1 heq
      refine Or.inr (Or.inl ?_)
      rw [heq]
      exact congrArg some (Except.error.inj h)
    · split at h
      · rename_i e1 heq
        refine Or.inr (Or.inr (Or.inl ?_))
        rw [heq]
        exact congrArg some (Except.error.inj h)
      · split at h
        · exact Or.inr (Or.inr (Or.inr (Or.inl (Except.error.inj h).symm)))
        · split at h
          · exact Or.inr (Or.inr (Or.inr (Or.inr (Or.inl (Except.error.inj h).symm))))
          · split at h
            · exact Or.inr (Or.inr (Or.inr (Or.inr (Or.inr (Except.error.inj h).symm))))
            · exact Except.noConfusion h

/-- Inversion of a successful call: the returned tuple is built from the
normalized inputs. -/
theorem check_arguments_ok_inv (r : Reader) (variables0 : Sum String (List String))
    (time0 : Option ℚ) (x y depth : NpArray ℚ)
    (vs : List String) (t : Option ℚ) (x' y' d' : NpArray ℚ) (o : List Nat)
    (h : check_arguments r variables0 time0 x y depth = .ok (vs, t, x', y', d', o)) :
    vs = normalizeVars variables0 ∧ t = defaultTime r time0 ∧
      x' = x ∧ y' = y ∧ d' = depth := by
  unfold check_arguments at h
  split at h
  · exact Except.noConfusion h
  · split at h
    · exact Except.noConfusion h
    · split at h
      · exact Except.noConfusion h
      · split at h
        · exact Except.noConfusion h
        · split at h
          · exact Except.noConfusion h
          · split at h
            · exact Except.noConfusion h
            · simp only [Except.ok.injEq, Prod.mk.injEq] at h
              exact ⟨h.1.symm, h.2.1.symm, h.2.2.1.symm, h.2.2.2.1.symm, h.2.2.2.2.1.symm⟩

/-! ### C1 -/

/-- C1: the claim states that the `outside` set contains exactly the indices
of the points whose `x` lies outside `[xmin,xmax]` or whose `y` lies outside
`[ymin,ymax]`.  The code (line 120) instead compares `y` against `xmin`: for
the reader `rBox` (box `[0,10] × [-5,10]`) the single point `(5, -3)` lies
inside the bounding box, yet the computed `outside` set is `[0]`, flagging
it.  This refutes the claim at a concrete input. -/
theorem c1_outside_mask_flags_inside_point :
    outsideWhere rBox (.arr [5]) (.arr [-3]) = some [0] ∧ insideBox rBox 5 (-3) := by
  constructor
  · decide
  · exact ⟨by norm_num [rBox], by norm_num [rBox], by norm_num [rBox], by norm_num [rBox]⟩

/-! ### C2 -/

/-- C2: the claim states that `check_arguments` raises AllPointsOutsideDomain
if and only if every requested point lies outside `[xmin,xmax] × [ymin,ymax]`.
For the reader `rBox` and the single point `(5, -3)`, which lies inside that
box, the call nevertheless raises the all-points-outside error (because the
mask of line 120 tests `y < xmin`), refuting the "only if" direction at a
concrete input. -/
theorem c2_all_outside_error_despite_inside_point :
    check_arguments rBox (.inr ["x_wind"]) none (.arr [5]) (.arr [-3]) (.arr [0]) =
      .error (.allOutside "rBox") ∧ insideBox rBox 5 (-3) := by
  constructor
  · decide
  · exact ⟨by norm_num [rBox], by norm_num [rBox], by norm_num [rBox], by norm_num [rBox]⟩

/-! ### C3 -/

/-- C3: for every request, if some normalized requested variable is missing
from the reader's catalog then `check_arguments` fails at the first such
variable with the unsupported-variable error carrying that variable and the
full catalog (the data of the message of lines 110-112); and if every
requested variable is in the catalog, no unsupported-variable error is
raised. -/
theorem c3_unsupported_variable (r : Reader) (variables0 : Sum String (List String))
    (time0 : Option ℚ) (x y depth : NpArray ℚ) :
    (∀ (i : ℕ) (hi : i < (normalizeVars variables0).length),
        (normalizeVars variables0)[i] ∉ r.vars →
        (∀ j, j < i → (normalizeVars variables0).getD j "" ∈ r.vars) →
        check_arguments r variables0 time0 x y depth =
          .error (.unsupportedVariable (normalizeVars variables0)[i] r.vars)) ∧
    ((∀ v ∈ normalizeVars variables0, v ∈ r.vars) →
        ∀ v c, check_arguments r variables0 time0 x y depth ≠
          .error (.unsupportedVariable v c)) := by
  constructor
  · intro i hi hmiss hfirst
    exact check_arguments_of_checkVars r variables0 time0 x y depth _
      (checkVars_eq_some_first r.vars (normalizeVars variables0) i hi hmiss hfirst)
  · intro hall v c h
    have hcv : checkVars r.vars (normalizeVars variables0) = none :=
      (checkVars_eq_none_iff _ _).mpr hall
    rcases check_arguments_error_cases r variables0 time0 x y depth _ h with
      hc | hc | hc | hc | hc | hc
    · rw [hcv] at hc
      exact Option.noConfusion hc
    · rcases (startTimeErr_eq_some_iff r _ _).mp hc with ⟨s, -, -, he⟩
      exact CheckErr.noConfusion he
    · rcases (endTimeErr_eq_some_iff r _ _).mp hc with ⟨en, -, -, he⟩
      exact CheckErr.noConfusion he
    · exact CheckErr.noConfusion hc
    · exact CheckErr.noConfusion hc
    · exact CheckErr.noConfusion hc

/-- C3 witness: the scenario of the spec's section 8 — requesting
`sea_water_temperature` from `rWind` fails with the unsupported-variable
error listing the full catalog `["x_wind", "y_wind"]`. -/
theorem c3_unsupported_variable_witness :
    check_arguments rWind (.inl "sea_water_temperature") (some 0)
        (.arr [1]) (.arr [1]) (.arr [0]) =
      .error (.unsupportedVariable "sea_water_temperature" ["x_wind", "y_wind"]) := by
  have h := (c3_unsupported_variable rWind (.inl "sea_water_temperature") (some 0)
      (.arr [1]) (.arr [1]) (.arr [0])).1 0 (by decide) (by decide) (by omega)
  exact h

/-! ### C7 -/

/-- C7: the claim states that `indices_min_max_depth` always returns
`minIndex ≤ maxIndex` with both valid (or boundary-clamped) indices into
`depths`.  The code violates both parts: for `rDepthDeep`
(`depths = [10, 20]`) and requested depth `5` (shallower than every
level) it returns `minIndex = -1`, which is not a valid index and not the
nearest boundary `0` (under Python's negative indexing `depths[-1]` is the
deepest level); for `rDepthDup` (`depths = [0, 10, 10, 20]`) and requested
depth `10` it returns `(2, 1)` with `minIndex = 2 > 1 = maxIndex`. -/
theorem c7_index_contract_violated :
    indices_min_max_depth rDepthDeep [5] = some (-1, 0) ∧ (-1 : ℤ) < 0 ∧
    indices_min_max_depth rDepthDup [10] = some (2, 1) ∧ (1 : ℤ) < 2 := by
  exact ⟨by decide, by decide, by decide, by decide⟩

/-! ### C8 -/

/-- C8: `check_arguments` normalizes its inputs before validating — a
single string variable is promoted to a one-element list, an unset time is
replaced by the reader's `startTime`, and the spatial inputs are the
`np.asarray` images of the inputs — and on success exactly these
normalized values are returned, otherwise unchanged. -/
theorem c8_normalized_values_returned (r : Reader) (variables0 : Sum String (List String))
    (time0 : Option ℚ) (x y depth : NpArray ℚ)
    (vs : List String) (t : Option ℚ) (x' y' d' : NpArray ℚ) (o : List Nat)
    (h : check_arguments r variables0 time0 x y depth = .ok (vs, t, x', y', d', o)) :
    vs = normalizeVars variables0 ∧ t = defaultTime r time0 ∧
      x' = x ∧ y' = y ∧ d' = depth :=
  check_arguments_ok_inv r variables0 time0 x y depth vs t x' y' d' o h

/-- C8 witness: a successful single-string call on `rBox` returns the
promoted variable list, the defaulted time and the unchanged arrays. -/
theorem c8_normalized_values_returned_witness :
    ["x_wind"] = normalizeVars (Sum.inl "x_wind") ∧
      (none : Option ℚ) = defaultTime rBox none ∧
      NpArray.arr [5] = NpArray.arr ([5] : List ℚ) ∧
      NpArray.arr [3] = NpArray.arr ([3] : List ℚ) ∧
      NpArray.arr [0] = NpArray.arr ([0] : List ℚ) :=
  c8_normalized_values_returned rBox (.inl "x_wind") none
    (.arr [5]) (.arr [3]) (.arr [0]) ["x_wind"] none
    (.arr [5]) (.arr [3]) (.arr [0]) [] (by decide)

/-! ### C10 -/

/-- C10: with genuinely scalar `x` and `y` (0-dimensional after
`np.asarray`), `check_arguments` never returns: every path raises, and when
the variable and time checks pass, the failure is precisely the `TypeError`
of `len()` applied to the unsized 0-dimensional `x` in line 121. -/
theorem c10_scalar_query_never_returns (r : Reader) (variables0 : Sum String (List String))
    (time0 : Option ℚ) (a b : ℚ) (depth : NpArray ℚ) :
    (∀ out, check_arguments r variables0 time0 (.scalar a) (.scalar b) depth ≠ .ok out) ∧
    ((∀ v ∈ normalizeVars variables0, v ∈ r.vars) →
      startTimeErr r (defaultTime r time0) = none →
      endTimeErr r (defaultTime r time0) = none →
      check_arguments r variables0 time0 (.scalar a) (.scalar b) depth =
        .error .typeError) := by
  have key : ∀ (hcv : checkVars r.vars (normalizeVars variables0) = none)
      (hst : startTimeErr r (defaultTime r time0) = none)
      (het : endTimeErr r (defaultTime r time0) = none),
      check_arguments r variables0 time0 (.scalar a) (.scalar b) depth =
        .error .typeError := by
    intro hcv hst het
    unfold check_arguments
    rw [hcv, hst, het]
    rfl
  constructor
  · intro out h
    rcases hcv : checkVars r.vars (normalizeVars variables0) with - | e
    · rcases hst : startTimeErr r (defaultTime r time0) with - | e
      · rcases het : endTimeErr r (defaultTime r time0) with - | e
        · rw [key hcv hst het] at h
          exact Except.noConfusion h
        · rw [check_arguments_of_endTimeErr r variables0 time0 _ _ depth e hcv hst het] at h
          exact Except.noConfusion h
      · rw [check_arguments_of_startTimeErr r variables0 time0 _ _ depth e hcv hst] at h
        exact Except.noConfusion h
    · rw [check_arguments_of_checkVars r variables0 time0 _ _ depth e hcv] at h
      exact Except.noConfusion h
  · intro hall hst het
    exact key ((checkVars_eq_none_iff _ _).mpr hall) hst het

/-- C10 witness: a scalar single-point query on `rBox` with a supported
variable and no time bounds fails with the `TypeError`. -/
theorem c10_scalar_query_never_returns_witness :
    check_arguments rBox (.inl "x_wind") none (.scalar 5) (.scalar 3) (.scalar 0) =
      .error .typeError :=
  (c10_scalar_query_never_returns rBox (.inl "x_wind") none 5 3 (.scalar 0)).2
    (by decide) rfl rfl

/-! ### C4 -/

/-- C4: when every requested variable is supported (so that the variable
check does not fire first), `check_arguments` raises a time-out-of-range
error if and only if the (possibly defaulted) requested time precedes a
defined `startTime` or exceeds a defined `endTime`; in particular for a
time within the defined bounds no time error is raised. -/
theorem c4_time_out_of_range_iff (r : Reader) (variables0 : Sum String (List String))
    (time0 : Option ℚ) (x y depth : NpArray ℚ)
    (hv : ∀ v ∈ normalizeVars variables0, v ∈ r.vars) :
    (∃ e, check_arguments r variables0 time0 x y depth = .error e ∧
        e.isTimeOutOfRange) ↔
      ((∃ s t, r.startTime = some s ∧ defaultTime r time0 = some t ∧ t < s) ∨
        (∃ en t, r.endTime = some en ∧ defaultTime r time0 = some t ∧ en < t)) := by
  have hcv : checkVars r.vars (normalizeVars variables0) = none :=
    (checkVars_eq_none_iff _ _).mpr hv
  constructor
  · rintro ⟨e, he, hto⟩
    rcases check_arguments_error_cases r variables0 time0 x y depth e he with
      hc | hc | hc | hc | hc | hc
    · rw [hcv] at hc
      exact Option.noConfusion hc
    · rcases (startTimeErr_eq_some_iff r _ _).mp hc with ⟨s, hs, hlt, -⟩
      left
      cases hd : defaultTime r time0 with
      | none =>
          rcases (defaultTime_eq_none_iff r time0).mp hd with ⟨-, hsn⟩
          rw [hsn] at hs
          exact Option.noConfusion hs
      | some t =>
          rw [hd] at hlt
          exact ⟨s, t, hs, rfl, by simpa [pyLtOptQ] using hlt⟩
    · rcases (endTimeErr_eq_some_iff r _ _).mp hc with ⟨en, hen, hgt, -⟩
      right
      cases hd : defaultTime r time0 with
      | none =>
          rw [hd] at hgt
          exact absurd hgt (by simp [pyGtOptQ])
      | some t =>
          rw [hd] at hgt
          exact ⟨en, t, hen, rfl, by simpa [pyGtOptQ] using hgt⟩
    · subst hc; simp [CheckErr.isTimeOutOfRange] at hto
    · subst hc; simp [CheckErr.isTimeOutOfRange] at hto
    · subst hc; simp [CheckErr.isTimeOutOfRange] at hto
  · rintro (⟨s, t, hs, hd, hts⟩ | ⟨en, t, hen, hd, hte⟩)
    · have hst : startTimeErr r (defaultTime r time0) =
          some (.timeBeforeStart (defaultTime r time0) s) :=
        (startTimeErr_eq_some_iff r _ _).mpr
          ⟨s, hs, by rw [hd]; simp [pyLtOptQ, hts], rfl⟩
      exact ⟨_, check_arguments_of_startTimeErr r variables0 time0 x y depth _ hcv hst,
        by simp [CheckErr.isTimeOutOfRange]⟩
    · rcases hst : startTimeErr r (defaultTime r time0) with - | e1
      · have het : endTimeErr r (defaultTime r time0) =
            some (.timeAfterEnd (defaultTime r time0) en) :=
          (endTimeErr_eq_some_iff r _ _).mpr
            ⟨en, hen, by rw [hd]; simp [pyGtOptQ, hte], rfl⟩
        exact ⟨_, check_arguments_of_endTimeErr r variables0 time0 x y depth _ hcv hst het,
          by simp [CheckErr.isTimeOutOfRange]⟩
      · rcases (startTimeErr_eq_some_iff r _ _).mp hst with ⟨s, -, -, he⟩
        refine ⟨e1, check_arguments_of_startTimeErr r variables0 time0 x y depth e1 hcv hst, ?_⟩
        subst he
        simp [CheckErr.isTimeOutOfRange]

/-- C4 witness: requesting time `-5` from `rWind` (coverage `[0, 86400]`)
raises a time-out-of-range error. -/
theorem c4_time_out_of_range_iff_witness :
    ∃ e, check_arguments rWind (.inr ["x_wind"]) (some (-5))
        (.arr [1]) (.arr [1]) (.arr [0]) = .error e ∧ e.isTimeOutOfRange :=
  (c4_time_out_of_range_iff rWind (.inr ["x_wind"]) (some (-5))
      (.arr [1]) (.arr [1]) (.arr [0]) (by decide)).mpr
    (Or.inl ⟨0, -5, rfl, rfl, by norm_num⟩)

/-! ### C5 and C9: the nearest-time-index lookup -/

theorem index_of_closest_time_eq (r : Reader) (s : ℚ) (hs : r.startTime = some s)
    (h0 : r.timeStep ≠ 0) (rt : ℚ) :
    index_of_closest_time r rt =
      (pyGet r.times (pyRound ((rt - s) / r.timeStep))).map
        (fun t => (pyRound ((rt - s) / r.timeStep), t)) := by
  simp only [index_of_closest_time, hs]
  rw [if_neg h0]

theorem pyGet_natCast {α : Type} (l : List α) (k : ℕ) (hk : k < l.length) :
    pyGet l (k : ℤ) = some l[k] := by
  unfold pyGet
  rw [if_pos (Int.natCast_nonneg k)]
  simp [List.getElem?_eq_getElem, hk]

/-- C5: on a regular time grid with positive step, a request at exactly the
`k`-th grid point returns `(k, times[k])`, and a request strictly between
grid points `k` and `k+1` that is strictly nearer to one of them returns
that grid point's index together with the timestamp stored there. -/
theorem c5_regular_grid_round (r : Reader) (s : ℚ)
    (hs : r.startTime = some s) (hpos : 0 < r.timeStep) :
    (∀ (k : ℕ) (hk : k < r.times.length),
        index_of_closest_time r (s + k * r.timeStep) = some ((k : ℤ), r.times[k])) ∧
    (∀ (k : ℕ) (rt : ℚ), s + k * r.timeStep < rt → rt < s + (k + 1) * r.timeStep →
        (rt - (s + k * r.timeStep) < s + (k + 1) * r.timeStep - rt →
          ∀ (hk : k < r.times.length),
            index_of_closest_time r rt = some ((k : ℤ), r.times[k])) ∧
        (s + (k + 1) * r.timeStep - rt < rt - (s + k * r.timeStep) →
          ∀ (hk1 : k + 1 < r.times.length),
            index_of_closest_time r rt = some ((k : ℤ) + 1, r.times[k + 1]))) := by
  have hne : r.timeStep ≠ 0 := hpos.ne'
  constructor
  · intro k hk
    have hq : (s + k * r.timeStep - s) / r.timeStep = (k : ℚ) := by
      rw [add_sub_cancel_left]
      exact mul_div_cancel_right₀ _ hne
    have hround : pyRound ((s + k * r.timeStep - s) / r.timeStep) = (k : ℤ) := by
      rw [hq]
      refine pyRound_eq (k : ℤ) (k : ℚ) (Nat.cast_nonneg k) ?_ ?_
      · push_cast; linarith
      · push_cast; linarith
    rw [index_of_closest_time_eq r s hs hne, hround, pyGet_natCast r.times k hk]
    rfl
  · intro k rt hlow hhigh
    have hql : (k : ℚ) < (rt - s) / r.timeStep := by
      rw [lt_div_iff₀ hpos]
      linarith
    have hqh : (rt - s) / r.timeStep < (k : ℚ) + 1 := by
      rw [div_lt_iff₀ hpos]
      linarith
    constructor
    · intro hnear hk
      have hmid : (rt - s) / r.timeStep < (k : ℚ) + 1/2 := by
        rw [div_lt_iff₀ hpos]
        linarith
      have hround : pyRound ((rt - s) / r.timeStep) = (k : ℤ) := by
        refine pyRound_eq (k : ℤ) _ ?_ ?_ ?_
        · have : (0 : ℚ) ≤ (k : ℚ) := Nat.cast_nonneg k
          linarith
        · push_cast; linarith
        · push_cast; linarith
      rw [index_of_closest_time_eq r s hs hne, hround, pyGet_natCast r.times k hk]
      rfl
    · intro hnear hk1
      have hmid : (k : ℚ) + 1/2 < (rt - s) / r.timeStep := by
        rw [lt_div_iff₀ hpos]
        linarith
      have hround : pyRound ((rt - s) / r.timeStep) = (k : ℤ) + 1 := by
        refine pyRound_eq ((k : ℤ) + 1) _ ?_ ?_ ?_
        · have : (0 : ℚ) ≤ (k : ℚ) := Nat.cast_nonneg k
          linarith
        · push_cast; linarith
        · push_cast; linarith
      have hcast : ((k + 1 : ℕ) : ℤ) = (k : ℤ) + 1 := by push_cast; ring
      rw [index_of_closest_time_eq r s hs hne, hround, ← hcast,
        pyGet_natCast r.times (k + 1) hk1]
      rfl

/-- C5 witness: on `rTimes` (start 100, step 100, times `[100, 200, 300]`),
requesting `100 + 1*100` hits index 1 exactly, and requesting 230 (between
200 and 300 but nearer to 200) also returns index 1 with timestamp 200. -/
theorem c5_regular_grid_round_witness :
    index_of_closest_time rTimes (100 + (1 : ℕ) * rTimes.timeStep) =
        some (((1 : ℕ) : ℤ), rTimes.times[1]) ∧
      index_of_closest_time rTimes 230 = some (((1 : ℕ) : ℤ), rTimes.times[1]) := by
  have h := c5_regular_grid_round rTimes 100 rfl (by norm_num [rTimes])
  refine ⟨h.1 1 (by decide), ?_⟩
  have h2 := (h.2 1 230 (by norm_num [rTimes]) (by norm_num [rTimes])).1
    (by norm_num [rTimes]) (by decide)
  exact h2

/-- C9: `index_of_closest_time` does not bound-check the rounded index.
For any request more than half a time step before `startTime` the rounded
index is negative; if the negative index is still within Python's
negative-indexing range the method silently returns the element counted
from the end of `times` at position `length + index`; and for any request
at least `length` steps past `startTime` (beyond the last sample) the
lookup fails with `IndexError` (modelled as `none`) instead of clamping. -/
theorem c9_no_bounds_check (r : Reader) (s : ℚ)
    (hs : r.startTime = some s) (hpos : 0 < r.timeStep) :
    (∀ rt : ℚ, rt < s - r.timeStep / 2 → pyRound ((rt - s) / r.timeStep) < 0) ∧
    (∀ rt : ℚ, rt < s - r.timeStep / 2 →
        0 ≤ (r.times.length : ℤ) + pyRound ((rt - s) / r.timeStep) →
        ∃ t, r.times[((r.times.length : ℤ) + pyRound ((rt - s) / r.timeStep)).toNat]? =
            some t ∧
          index_of_closest_time r rt = some (pyRound ((rt - s) / r.timeStep), t)) ∧
    (∀ rt : ℚ, s + (r.times.length : ℚ) * r.timeStep ≤ rt →
        index_of_closest_time r rt = none) := by
  have hne : r.timeStep ≠ 0 := hpos.ne'
  have hneg : ∀ rt : ℚ, rt < s - r.timeStep / 2 → pyRound ((rt - s) / r.timeStep) ≤ -1 := by
    intro rt hrt
    have hq : (rt - s) / r.timeStep < -(1/2 : ℚ) := by
      rw [div_lt_iff₀ hpos]
      linarith
    have hq0 : ¬ (0 : ℚ) ≤ (rt - s) / r.timeStep := by linarith
    unfold pyRound
    rw [if_neg hq0]
    refine Int.ceil_le.mpr ?_
    push_cast
    linarith
  refine ⟨fun rt hrt => lt_of_le_of_lt (hneg rt hrt) (by norm_num), ?_, ?_⟩
  · intro rt hrt hlen
    have h1 : pyRound ((rt - s) / r.timeStep) ≤ -1 := hneg rt hrt
    have hval : ((r.times.length : ℤ) + pyRound ((rt - s) / r.timeStep)).toNat <
        r.times.length := by omega
    refine ⟨r.times[((r.times.length : ℤ) + pyRound ((rt - s) / r.timeStep)).toNat],
      List.getElem?_eq_getElem hval, ?_⟩
    rw [index_of_closest_time_eq r s hs hne]
    unfold pyGet
    rw [if_neg (by omega), if_pos hlen, List.getElem?_eq_getElem hval]
    rfl
  · intro rt hrt
    have hq : (r.times.length : ℚ) ≤ (rt - s) / r.timeStep := by
      rw [le_div_iff₀ hpos]
      linarith
    have hq0 : (0 : ℚ) ≤ (rt - s) / r.timeStep := by
      have : (0 : ℚ) ≤ (r.times.length : ℚ) := Nat.cast_nonneg _
      linarith
    have hfloor : (r.times.length : ℤ) ≤ pyRound ((rt - s) / r.timeStep) := by
      unfold pyRound
      rw [if_pos hq0]
      refine Int.le_floor.mpr ?_
      push_cast
      linarith
    rw [index_of_closest_time_eq r s hs hne]
    unfold pyGet
    rw [if_pos (by omega)]
    rw [List.getElem?_eq_none (by omega)]
    rfl

/-- C9 witness: on `rTimes`, requesting time 0 (a full step before the
start) yields a negative rounded index, and requesting time 500 (two steps
past the last sample) raises `IndexError`. -/
theorem c9_no_bounds_check_witness :
    pyRound ((0 - 100) / rTimes.timeStep) < 0 ∧
      index_of_closest_time rTimes 500 = none := by
  have h := c9_no_bounds_check rTimes 100 rfl (by norm_num [rTimes])
  exact ⟨h.1 0 (by norm_num [rTimes]), h.2.2 500 (by norm_num [rTimes])⟩

/-! ### C6: the depth-range index lookup -/

theorem indices_min_max_depth_eval (r : Reader) (req : List ℚ) (dmin dmax : ℚ)
    (hmin : ndarrayMin req = some dmin) (hmax : ndarrayMax req = some dmax)
    (hne : r.depths.isEmpty = false) :
    indices_min_max_depth r req =
      some (((boolArgmin (r.depths.map (fun d => decide (d ≤ dmin)))) : ℤ) - 1,
            boolArgmax (r.depths.map (fun d => decide (dmax ≤ d)))) := by
  simp only [indices_min_max_depth, hmin, hmax, hne]
  rfl

/-- Characterization of `(depths <= dmin).argmin() - 1 + 1` on a strictly
increasing axis that starts at or below `dmin` and contains a level
strictly above `dmin`: the argmin lands on the first level above `dmin`. -/
theorem boolArgmin_map_le (depths : List ℚ) (dmin : ℚ)
    (hsorted : depths.Pairwise (· < ·))
    (h0 : 0 < depths.length) (hlo : depths.getD 0 0 ≤ dmin)
    (hstrict : ∃ i, i < depths.length ∧ dmin < depths.getD i 0) :
    ∃ j, 0 < j ∧ j < depths.length ∧
      boolArgmin (depths.map (fun d => decide (d ≤ dmin))) = j ∧
      depths.getD (j - 1) 0 ≤ dmin ∧
      ∀ i, i < depths.length → j - 1 < i → dmin < depths.getD i 0 := by
  obtain ⟨i0, hi0, hgt0⟩ := hstrict
  have hblen : (depths.map (fun d => decide (d ≤ dmin))).length = depths.length := by
    simp
  have hb0 : (depths.map (fun d => decide (d ≤ dmin))).getD i0 true = false := by
    rw [List.getD_pos _ i0 true (by omega), List.getElem_map]
    rw [List.getD_pos depths i0 0 hi0] at hgt0
    simp [not_le.mpr hgt0]
  obtain ⟨j, hj⟩ := firstFalseIdx_isSome _ i0 (by omega) hb0
  obtain ⟨hjlen, hjval, hjall⟩ := (firstFalseIdx_eq_some_iff _ j).mp hj
  rw [hblen] at hjlen
  have hjget : dmin < depths[j] := by
    rw [List.getD_pos _ j true (by simpa using hjlen), List.getElem_map] at hjval
    simpa using hjval
  have hj0 : 0 < j := by
    rcases Nat.eq_zero_or_pos j with hz | hp
    · subst hz
      rw [List.getD_pos depths 0 0 h0] at hlo
      exact absurd hjget (by exact not_lt.mpr hlo)
    · exact hp
  have hprev : ∀ i, i < j → depths.getD i 0 ≤ dmin := by
    intro i hi
    have := hjall i (by simpa using hi)
    rw [List.getD_pos _ i false (by simp; omega), List.getElem_map] at this
    rw [List.getD_pos depths i 0 (by omega)]
    simpa using this
  refine ⟨j, hj0, hjlen, ?_, hprev (j - 1) (by omega), ?_⟩
  · unfold boolArgmin
    rw [hj]
    rfl
  · intro i hi hji
    rw [List.getD_pos depths i 0 hi]
    rcases Nat.lt_or_ge i j with hij | hij
    · omega
    · rcases Nat.eq_or_lt_of_le hij with rfl | hlt
      · exact hjget
      · have := (List.pairwise_iff_getElem.mp hsorted) j i hjlen hi hlt
        exact lt_trans hjget this

/-- Characterization of `(depths >= dmax).argmax()` whenever some level is
at or above `dmax`: the argmax is the first such level. -/
theorem boolArgmax_map_ge (depths : List ℚ) (dmax : ℚ)
    (hcover : ∃ i, i < depths.length ∧ dmax ≤ depths.getD i 0) :
    ∃ M, M < depths.length ∧
      boolArgmax (depths.map (fun d => decide (dmax ≤ d))) = M ∧
      dmax ≤ depths.getD M 0 ∧
      ∀ i, i < M → depths.getD i 0 < dmax := by
  obtain ⟨i0, hi0, hge0⟩ := hcover
  have hb0 : (depths.map (fun d => decide (dmax ≤ d))).getD i0 false = true := by
    rw [List.getD_pos _ i0 false (by simpa using hi0), List.getElem_map]
    rw [List.getD_pos depths i0 0 hi0] at hge0
    simpa using hge0
  obtain ⟨M, hM⟩ := firstTrueIdx_isSome _ i0 (by simpa using hi0) hb0
  obtain ⟨hMlen, hMval, hMall⟩ := (firstTrueIdx_eq_some_iff _ M).mp hM
  rw [List.length_map] at hMlen
  have hMget : dmax ≤ depths.getD M 0 := by
    rw [List.getD_pos _ M false (by simp; omega), List.getElem_map] at hMval
    rw [List.getD_pos depths M 0 hMlen]
    simpa using hMval
  refine ⟨M, hMlen, ?_, hMget, ?_⟩
  · unfold boolArgmax
    rw [hM]
    rfl
  · intro i hi
    have := hMall i (by simpa using hi)
    rw [List.getD_pos _ i true (by simp; omega), List.getElem_map] at this
    rw [List.getD_pos depths i 0 (by omega)]
    simpa using this

/-- C6 counterexample: the claim states that whenever the non-empty
increasing depth axis spans the requested range, `minIndex` is the largest
index `i` with `depths[i] ≤ min(requested)` and `maxIndex` the first index
with `depths[i] ≥ max(requested)`.  For `rDepthPair` (`depths = [0, 10]`,
which spans the degenerate requested range `[10, 10]`) the largest index
with `depths[i] ≤ 10` is `1` and the first index with `depths[i] ≥ 10` is
`1`, so the claim demands `some (1, 1)`; the code returns `some (-1, 1)`
because `(depths <= 10).argmin()` is `0` when every entry is `True`. -/
theorem c6_depth_indices_counterexample :
    indices_min_max_depth rDepthPair [10] = some (-1, 1) ∧
      indices_min_max_depth rDepthPair [10] ≠ some (1, 1) ∧
      rDepthPair.depths.getD 1 0 ≤ 10 ∧ 1 < rDepthPair.depths.length ∧
      rDepthPair.depths.Pairwise (· < ·) := by
  exact ⟨by decide, by decide, by decide, by decide, by decide⟩

/-- C6 (amended): for a non-empty strictly increasing depth axis whose
coverage spans the requested depth range and which moreover contains a
level strictly deeper than the requested minimum, `indices_min_max_depth`
returns `minIndex` equal to the largest index `i` with
`depths[i] ≤ min(requested)` and `maxIndex` equal to the first index with
`depths[i] ≥ max(requested)` (amended from the original claim only by the
extra "strictly deeper level" hypothesis, which the counterexample
`rDepthPair`/`[10]` forces). -/
theorem c6_depth_indices_amended (r : Reader) (req : List ℚ) (dmin dmax : ℚ)
    (hmin : ndarrayMin req = some dmin) (hmax : ndarrayMax req = some dmax)
    (hsorted : r.depths.Pairwise (· < ·))
    (h0 : 0 < r.depths.length)
    (hlo : r.depths.getD 0 0 ≤ dmin)
    (hcover : ∃ i, i < r.depths.length ∧ dmax ≤ r.depths.getD i 0)
    (hstrict : ∃ i, i < r.depths.length ∧ dmin < r.depths.getD i 0) :
    ∃ m M : ℕ, m < r.depths.length ∧ M < r.depths.length ∧
      indices_min_max_depth r req = some ((m : ℤ), M) ∧
      r.depths.getD m 0 ≤ dmin ∧
      (∀ i, i < r.depths.length → m < i → dmin < r.depths.getD i 0) ∧
      dmax ≤ r.depths.getD M 0 ∧
      (∀ i, i < M → r.depths.getD i 0 < dmax) := by
  obtain ⟨j, hj0, hjlen, hargmin, hle, hgt⟩ :=
    boolArgmin_map_le r.depths dmin hsorted h0 hlo hstrict
  obtain ⟨M, hMlen, hargmax, hMge, hMlt⟩ := boolArgmax_map_ge r.depths dmax hcover
  refine ⟨j - 1, M, by omega, hMlen, ?_, hle, hgt, hMge, hMlt⟩
  have hne : r.depths.isEmpty = false := by
    rcases hD : r.depths with - | ⟨a, l⟩
    · rw [hD] at h0
      simp at h0
    · rfl
  rw [indices_min_max_depth_eval r req dmin dmax hmin hmax hne, hargmin, hargmax]
  have : ((j : ℤ)) - 1 = ((j - 1 : ℕ) : ℤ) := by omega
  rw [this]

/-- C6 witness: for the spec's example, depth axis `[0, 10, 20, 30, 50]`
and requested range `[12, 25]`, the lookup returns `minIndex = 1`
(depth 10) and `maxIndex = 3` (depth 30). -/
theorem c6_depth_indices_amended_witness :
    indices_min_max_depth rDepthGrid [12, 25] = some (1, 3) ∧
      ∃ m M : ℕ, m < rDepthGrid.depths.length ∧ M < rDepthGrid.depths.length ∧
        indices_min_max_depth rDepthGrid [12, 25] = some ((m : ℤ), M) ∧
        rDepthGrid.depths.getD m 0 ≤ 12 ∧
        (∀ i, i < rDepthGrid.depths.length → m < i → 12 < rDepthGrid.depths.getD i 0) ∧
        25 ≤ rDepthGrid.depths.getD M 0 ∧
        (∀ i, i < M → rDepthGrid.depths.getD i 0 < 25) :=
  ⟨by decide,
    c6_depth_indices_amended rDepthGrid [12, 25] 12 25 (by decide) (by decide)
      (by decide) (by decide) (by decide)
      ⟨4, by decide, by decide⟩ ⟨2, by decide, by decide⟩⟩

end Readers
